import Mathlib

/-!
# Verification of the Agent Messaging & Orchestration Core

A shallow embedding of the agent protocol (`agents/agent_protocol.py`), the
ranking agent's scoring and ranking pipeline (`agents/ranking_agent.py`) and
the communication agent's notification dispatch
(`agents/communication_agent.py`), together with proofs and refutations of
the specified properties.

Modelling conventions:
* Python runtime values flowing through the JSON-shaped dictionaries are
  embedded as the inductive type `PyVal`; Python floats are modelled as
  exact rationals (`ℚ`).
* `float(x)` coercion is modelled by `pyFloat?`: it succeeds on numbers and
  booleans and fails (models `ValueError`/`TypeError`) on `None`, lists,
  dicts and strings.  Numeric strings, which Python would parse, are not
  modelled; no property below depends on them.
* Wall-clock instants (`datetime.now()`, `time.sleep` delays) are modelled
  as integers passed explicitly to each operation that reads the clock.
* Handler invocation (`message_handler(message)` /
  `agent_instance.receive_message(message)`) is abstracted by a boolean
  oracle `handlerOk` stored in each registration: `true` means the call
  returns normally, `false` means it raises.
-/

/-- Embedded Python values as they flow through the payload dictionaries.
Dictionaries are association lists with string keys (all keys used by the
code are string literals). -/
inductive PyVal : Type where
  | none : PyVal
  | bool : Bool → PyVal
  | int : Int → PyVal
  | float : ℚ → PyVal
  | str : String → PyVal
  | list : List PyVal → PyVal
  | dict : List (String × PyVal) → PyVal

/-- A Python dictionary with string keys. -/
abbrev PyDict := List (String × PyVal)

/-- Python `d.get(k)` returning `Option`: first binding of the key, if any. -/
def dget? : PyDict → String → Option PyVal
  | [], _ => Option.none
  | (k', v) :: rest, k => if k' = k then some v else dget? rest k

/-- Python `d.get(k, default)`. -/
def dgetD (d : PyDict) (k : String) (dflt : PyVal) : PyVal :=
  (dget? d k).getD dflt

/-- Python `d[k] = v`: replace the first binding of `k`, or append a new one. -/
def dset : PyDict → String → PyVal → PyDict
  | [], k, v => [(k, v)]
  | (k', v') :: rest, k, v => if k' = k then (k, v) :: rest else (k', v') :: dset rest k v

/-- Python truthiness (`if x:`) on embedded values. -/
def truthy : PyVal → Bool
  | .none => false
  | .bool b => b
  | .int n => n != 0
  | .float q => q != 0
  | .str s => !(s.isEmpty)
  | .list l => !l.isEmpty
  | .dict d => !d.isEmpty

/-- Python `isinstance(x, dict)`. -/
def isDictV : PyVal → Bool
  | .dict _ => true
  | _ => false

/-- Python `isinstance(x, list)`. -/
def isListV : PyVal → Bool
  | .list _ => true
  | _ => false

/-- Python `x is None`. -/
def isNoneV : PyVal → Bool
  | .none => true
  | _ => false

/-- The `float(x)` coercion: numbers and booleans convert, everything else
raises (`none` result models the raised `ValueError`/`TypeError`). -/
def pyFloat? : PyVal → Option ℚ
  | .float q => some q
  | .int n => some (n : ℚ)
  | .bool b => some (if b then 1 else 0)
  | _ => none

/-- Python `x == s` against a string literal: true exactly when `x` is an
equal string (string/non-string comparison is `False` in Python). -/
def pyEqStr (v : PyVal) (s : String) : Bool :=
  match v with
  | .str t => t == s
  | _ => false

/-- Python's `min` on two floats (kept computable on `ℚ`). -/
def qmin (a b : ℚ) : ℚ := if a ≤ b then a else b

/-- Python's `max` on two floats (kept computable on `ℚ`). -/
def qmax (a b : ℚ) : ℚ := if a ≤ b then b else a

/-- The skills / experience / education / recommendation adjustments of
`RankingAgent._calculate_enhanced_score` (`agents/ranking_agent.py`
lines 256-299), applied to the base score `s` given a `comparison_details`
dictionary `cd`.  Each malformed sub-structure is skipped by the
`isinstance` guards and contributes no adjustment. -/
def scoreAdjust (cd : PyDict) (s : ℚ) : ℚ :=
  let s1 :=
    match dgetD cd "skills_match" (.dict []) with
    | .dict sm =>
      let sA :=
        match dgetD sm "matched_skills" (.list []) with
        | .list ms => if ms.length > 0 then s + qmin (1/10) ((ms.length : ℚ) * (1/50)) else s
        | _ => s
      match dgetD sm "missing_skills" (.list []) with
      | .list ms => if ms.length > 0 then sA - qmin (1/10) ((ms.length : ℚ) * (3/200)) else sA
      | _ => sA
    | _ => s
  let s2 :=
    match dgetD cd "experience_match" (.dict []) with
    | .dict em =>
      match pyFloat? (dgetD em "relevance_score" (.int 0)) with
      | some r => if r > 7/10 then s1 + 1/20 else s1
      | Option.none => s1
    | _ => s1
  let s3 :=
    match dgetD cd "education_match" (.dict []) with
    | .dict ed => if truthy (dgetD ed "meets_requirements" (.bool false)) then s2 + 3/100 else s2
    | _ => s2
  match dgetD cd "overall_assessment" (.dict []) with
  | .dict oa =>
    let recm := dgetD oa "recommendation" (.str "")
    if pyEqStr recm "highly_recommended" then s3 + 2/25
    else if pyEqStr recm "recommended" then s3 + 1/25
    else if pyEqStr recm "not_recommended" then s3 - 1/20
    else s3
  | _ => s3

/-- Embeds `RankingAgent._calculate_enhanced_score` (`agents/ranking_agent.py`
lines 241-312).  The base score is `result.get('similarity_score', 0.0)`,
mapped to `0.0` when `None` and coerced with `float`; a coercion failure
raises, is caught by the function's handler, which retries the same
coercion and falls back to `0.0`.  When `comparison_details` is a dict the
adjusted score is clamped into `[0,1]`; when it is present but NOT a dict
the function returns the coerced base score early, without clamping. -/
def calculateEnhancedScore (result : PyDict) : ℚ :=
  let raw := dgetD result "similarity_score" (.float 0)
  let raw := if isNoneV raw then .float 0 else raw
  match pyFloat? raw with
  | Option.none => 0
  | some base =>
    match dgetD result "comparison_details" (.dict []) with
    | .dict cd => qmax 0 (qmin 1 (scoreAdjust cd base))
    | _ => base

example : calculateEnhancedScore [("similarity_score", .float (1/2))] = 1/2 := by
  simp [calculateEnhancedScore, scoreAdjust, dgetD, dget?, qmin, qmax, pyFloat?,
    isNoneV, pyEqStr, truthy] <;> norm_num
example : calculateEnhancedScore
    [("similarity_score", .float (1/2)),
     ("comparison_details", .dict [("education_match", .dict [("meets_requirements", .bool true)])])]
    = 53/100 := by
  simp [calculateEnhancedScore, scoreAdjust, dgetD, dget?, qmin, qmax, pyFloat?,
    isNoneV, pyEqStr, truthy] <;> norm_num
example : calculateEnhancedScore
    [("similarity_score", .float (3/2)), ("comparison_details", .str "oops")] = 3/2 := by
  simp [calculateEnhancedScore, scoreAdjust, dgetD, dget?, qmin, qmax, pyFloat?,
    isNoneV, pyEqStr, truthy] <;> norm_num
example : calculateEnhancedScore [] = 0 := by
  simp [calculateEnhancedScore, scoreAdjust, dgetD, dget?, qmin, qmax, pyFloat?,
    isNoneV, pyEqStr, truthy] <;> norm_num

/-- The list `scored_results` of `RankingAgent.rank_applications`
(`agents/ranking_agent.py` lines 129-133): each comparison result receives
an `enhanced_score` entry holding its computed enhanced score. -/
def scoreResults (results : List PyDict) : List PyDict :=
  results.map (fun r => dset r "enhanced_score" (.float (calculateEnhancedScore r)))

/-- The sort key `x.get('enhanced_score', 0)` of the `sorted` call
(`agents/ranking_agent.py` lines 136-140), read as a number.  On every
record produced by `scoreResults` the entry is the float written there, so
the numeric coercion is the identity of the Python comparison. -/
def enhancedKey (r : PyDict) : ℚ :=
  (pyFloat? (dgetD r "enhanced_score" (.int 0))).getD 0

/-- Comparison relation of the descending sort: `a` may precede `b`. -/
def keyGe (a b : PyDict) : Prop := enhancedKey b ≤ enhancedKey a

instance : DecidableRel keyGe := fun a b => by
  unfold keyGe; infer_instance

instance : IsTotal PyDict keyGe :=
  ⟨fun a b => le_total (enhancedKey b) (enhancedKey a)⟩

instance : IsTrans PyDict keyGe :=
  ⟨fun _ _ _ h h' => le_trans h' h⟩

/-- The ranking core of `RankingAgent.rank_applications`
(`agents/ranking_agent.py` lines 113-147): reject a falsy `job_id` or an
empty result list (`none`, modelling the error response), otherwise score
every result, sort by enhanced score descending — Python's `sorted` is
stable, embedded here as insertion sort with the relation `keyGe` — and
pair the sorted records with 1-based positions (`enumerate(..., 1)`).
Database writes are assumed to succeed, so every position is kept. -/
def rankApplications (jobId : PyVal) (results : List PyDict) :
    Option (List (ℕ × PyDict)) :=
  if truthy jobId = false then Option.none
  else if results.isEmpty then Option.none
  else
    let ranked := List.insertionSort keyGe (scoreResults results)
    some ((List.range' 1 ranked.length).zip ranked)

/-- The `float` coercion block of the save loop
(`agents/ranking_agent.py` lines 148-159): read `similarity_score`
(default `0.0`) and `enhanced_score` (default: the raw similarity value),
coerce both with `float` mapping `None` to the stated defaults; if either
coercion raises, both scores fall back to `0.0`. -/
def coerceScores (result : PyDict) : ℚ × ℚ :=
  let ssR := dgetD result "similarity_score" (.float 0)
  let esR := dgetD result "enhanced_score" ssR
  match (if isNoneV ssR then some 0 else pyFloat? ssR) with
  | Option.none => (0, 0)
  | some ss =>
    match (if isNoneV esR then some ss else pyFloat? esR) with
    | Option.none => (0, 0)
    | some es => (ss, es)

/-- The persisted `Ranking` record (`models/ranking.py`), restricted to the
fields the save loop fills in.  Display-only fields (`applicant_name`,
`job_title`, database `id`, `created_at`) are not modelled. -/
structure RankingModel where
  job_id : PyVal
  application_id : PyVal
  similarity_score : ℚ
  rank_position : ℕ
  ranking_details : PyDict

/-- One iteration of the save loop of `RankingAgent.rank_applications`
(`agents/ranking_agent.py` lines 147-179): coerce the scores, default a
non-dict `comparison_details` to `{}`, attach the `ranking_metadata` entry,
and build the `Ranking` record — whose `similarity_score` field is
assigned `enhanced_score` (the code comment reads `# Use enhanced score`).
`total` is `len(ranked_results)` and `ts` the `time.time()` stamp.
A missing `application_id` key raises (`Option.none`). -/
def buildRanking (jobId : PyVal) (total : ℕ) (ts : ℚ) (i : ℕ) (result : PyDict) :
    Option RankingModel :=
  let sc := coerceScores result
  let cd := match dgetD result "comparison_details" (.dict []) with
    | .dict d => d
    | _ => []
  let cd := dset cd "ranking_metadata" (.dict [
      ("original_similarity_score", .float sc.1),
      ("enhanced_score", .float sc.2),
      ("rank_position", .int (i : Int)),
      ("total_candidates", .int (total : Int)),
      ("ranking_timestamp", .float ts)])
  match dget? result "application_id" with
  | Option.none => Option.none
  | some appId => some {
      job_id := jobId,
      application_id := appId,
      similarity_score := sc.2,
      rank_position := i,
      ranking_details := cd }

/-- The two email variants of
`CommunicationAgent.send_ranking_notification`. -/
inductive EmailVariant : Type where
  | topCandidates (count : ℕ) : EmailVariant
  | noMatches : EmailVariant
deriving DecidableEq

/-- The variant decision of `CommunicationAgent.send_ranking_notification`
(`agents/communication_agent.py` lines 125-134): take the top three of the
received rankings (`rankings[:3]` when the list is truthy, else `[]`); the
"no suitable candidates" content is generated exactly when that slice is
empty — the scores play no part in the decision. -/
def rankingNotificationVariant (rankings : List α) : EmailVariant :=
  let top := if rankings.isEmpty then [] else rankings.take 3
  if top.isEmpty then .noMatches else .topCandidates top.length

/-- The forwarding guard in `RankingAgent.receive_message`
(`agents/ranking_agent.py` line 51): the ranking result is sent to the
communication agent only when the status is success and the rankings list
is truthy (non-empty). -/
def forwardsToCommunication (rankResult : Option (List (ℕ × PyDict))) : Bool :=
  match rankResult with
  | some l => !l.isEmpty
  | Option.none => false

/-- Agent status (`agents/agent_protocol.py` `AgentStatus`). -/
inductive AgStatus : Type where
  | active | busy | inactive | error
deriving DecidableEq

/-- Embeds `AgentMessage` (`agents/agent_protocol.py` lines 43-59), restricted to
the fields the protocol logic reads.  `message_type`, `message_id`,
`correlation_id`, `priority` and `requires_ack` never influence
validation, delivery or retry and are left out.  `retry_count` starts at
`0` and is only ever incremented. -/
structure AMessage : Type where
  sender : String
  receiver : String
  payload : PyVal
  timestamp : Int
  expires_at : Option Int
  retry_count : ℕ

/-- The `AgentMessage` constructor including `__post_init__`
(`agents/agent_protocol.py` lines 57-59): a missing `expires_at` defaults
to `timestamp + settings.A2A_MESSAGE_TIMEOUT`; a caller-supplied value is
kept as is. -/
def mkAgentMessage (sender receiver : String) (payload : PyVal)
    (now timeout : Int) (expiresAt : Option Int) : AMessage :=
  { sender := sender, receiver := receiver, payload := payload,
    timestamp := now, retry_count := 0,
    expires_at := some (expiresAt.getD (now + timeout)) }

/-- Embeds `AgentMessage.is_expired` (`agents/agent_protocol.py` lines 94-96):
`self.expires_at and datetime.now() > self.expires_at`. -/
def isExpired (now : Int) (m : AMessage) : Bool :=
  match m.expires_at with
  | Option.none => false
  | some e => decide (now > e)

/-- Embeds `AgentRegistration` (`agents/agent_protocol.py` lines 98-106),
restricted to the fields the protocol logic reads; handler invocation is
the oracle `handlerOk` (see the file header). -/
structure AgentReg : Type where
  agentName : String
  status : AgStatus
  lastHeartbeat : Int
  handlerOk : AMessage → Bool

/-- The mutable protocol state (`AgentProtocol.__init__`,
`agents/agent_protocol.py` lines 116-119). -/
structure ProtocolState : Type where
  registeredAgents : List (String × AgentReg)
  messageHistory : List AMessage
  failedMessages : List AMessage

/-- The `self.registered_agents[name]` lookup. -/
def findAgent (st : ProtocolState) (name : String) : Option AgentReg :=
  match st.registeredAgents.find? (fun p => p.1 == name) with
  | some p => some p.2
  | Option.none => Option.none

/-- Update the registration stored under `name` (in-place mutation of the
registry entry). -/
def updateAgent (st : ProtocolState) (name : String) (f : AgentReg → AgentReg) :
    ProtocolState :=
  { st with registeredAgents :=
      st.registeredAgents.map (fun p => if p.1 == name then (p.1, f p.2) else p) }

/-- Embeds `AgentProtocol._validate_message` (`agents/agent_protocol.py` lines
256-270): reject an empty sender or receiver, an expired message, and a
non-dict payload, in that order. -/
def validateMessage (now : Int) (m : AMessage) : Bool :=
  if m.sender = "" || m.receiver = "" then false
  else if isExpired now m then false
  else if !(isDictV m.payload) then false
  else true

/-- Embeds `AgentProtocol._deliver_message_sync` (`agents/agent_protocol.py`
lines 201-230): look the receiver up (a missing entry raises `KeyError`,
caught by the outer handler: plain `false`), set its status to `BUSY`,
invoke the handler; on success restore the saved pre-delivery status (so
the state is unchanged), on a handler exception set the status to `ERROR`.
No validation or expiry check happens here. -/
def deliverMessageSync (st : ProtocolState) (m : AMessage) :
    Bool × ProtocolState :=
  match findAgent st m.receiver with
  | Option.none => (false, st)
  | some reg =>
    if reg.handlerOk m then
      (true, st)
    else
      (false, updateAgent st m.receiver (fun r => { r with status := .error }))

/-- Embeds `AgentProtocol._handle_delivery_failure` (`agents/agent_protocol.py`
lines 232-254).  Result: the new state together with the scheduled retry,
if any — `some (m', delay)` means a detached task will `sleep(delay)` and
re-attempt delivery of `m'`.  Below `settings.A2A_MAX_RETRIES` the retry
count is incremented first and the delay is `min(2 ** retry_count, 5)`
computed from the incremented count; otherwise the message is appended to
the failed archive and nothing is scheduled. -/
def handleDeliveryFailure (maxRetries : ℕ) (st : ProtocolState) (m : AMessage) :
    ProtocolState × Option (AMessage × ℕ) :=
  if m.retry_count < maxRetries then
    let m' := { m with retry_count := m.retry_count + 1 }
    (st, some (m', min (2 ^ m'.retry_count) 5))
  else
    ({ st with failedMessages := st.failedMessages ++ [m] }, Option.none)

/-- Embeds `AgentProtocol.send_message` (`agents/agent_protocol.py` lines
173-199): validation failure returns `False` (the message is NOT
archived); an unregistered receiver returns `False` and archives the
message; otherwise the message is appended to the history and delivered
synchronously, falling back to the retry policy on failure.  The third
component is the retry task scheduled by that fallback, if any. -/
def sendMessage (maxRetries : ℕ) (now : Int) (st : ProtocolState) (m : AMessage) :
    Bool × ProtocolState × Option (AMessage × ℕ) :=
  if !(validateMessage now m) then (false, st, Option.none)
  else
    match findAgent st m.receiver with
    | Option.none =>
      (false, { st with failedMessages := st.failedMessages ++ [m] }, Option.none)
    | some _ =>
      let st₁ := { st with messageHistory := st.messageHistory ++ [m] }
      match deliverMessageSync st₁ m with
      | (true, st₂) => (true, st₂, Option.none)
      | (false, st₂) =>
        let r := handleDeliveryFailure maxRetries st₂ m
        (false, r.1, r.2)

/-- The body of the detached `retry_later` task
(`agents/agent_protocol.py` lines 239-246): after the sleep it re-attempts
synchronous delivery directly — no validation, no expiry check — and on
renewed failure recurses into the failure handler. -/
def retryFire (maxRetries : ℕ) (st : ProtocolState) (m : AMessage) :
    Bool × ProtocolState × Option (AMessage × ℕ) :=
  match deliverMessageSync st m with
  | (true, st') => (true, st', Option.none)
  | (false, st') =>
    let r := handleDeliveryFailure maxRetries st' m
    (false, r.1, r.2)

/-- Embeds `AgentProtocol.send_heartbeat` (`agents/agent_protocol.py` lines
329-336): refresh the heartbeat of a registered agent and flip an
`INACTIVE` status — and only that status — back to `ACTIVE`. -/
def sendHeartbeat (now : Int) (st : ProtocolState) (name : String) :
    ProtocolState :=
  match findAgent st name with
  | Option.none => st
  | some _ =>
    updateAgent st name (fun r =>
      let r' := { r with lastHeartbeat := now }
      if r'.status = .inactive then { r' with status := .active } else r')

/-- Registration insert/overwrite of `AgentProtocol.register_agent`
(`agents/agent_protocol.py` lines 142-161): the new registration record
carries the dataclass default status `ACTIVE` and heartbeat `now`.  The
registration broadcast only notifies other agents and never mutates the
registry. -/
def registerAgent (now : Int) (st : ProtocolState) (name : String)
    (handlerOk : AMessage → Bool) : ProtocolState :=
  let reg : AgentReg :=
    { agentName := name, status := .active, lastHeartbeat := now,
      handlerOk := handlerOk }
  { st with registeredAgents :=
      if (st.registeredAgents.find? (fun p => p.1 == name)).isSome then
        st.registeredAgents.map (fun p => if p.1 == name then (p.1, reg) else p)
      else
        st.registeredAgents ++ [(name, reg)] }

/-- One sweep of `AgentProtocol._monitor_agent_heartbeats`
(`agents/agent_protocol.py` lines 312-327): an agent that is not alive
(`now - last_heartbeat` at least twice the message timeout) and whose
status is `ACTIVE` is flipped to `INACTIVE`; no other status changes. -/
def monitorSweep (now timeout2 : Int) (st : ProtocolState) : ProtocolState :=
  { st with registeredAgents :=
      st.registeredAgents.map (fun p =>
        if !(now - p.2.lastHeartbeat < timeout2) && p.2.status = .active then
          (p.1, { p.2 with status := .inactive })
        else p) }

/-! ## Helper lemmas -/

theorem qmax_zero_nonneg (x : ℚ) : 0 ≤ qmax 0 x := by
  unfold qmax; split
  · assumption
  · exact le_refl 0

theorem qmax_zero_le_one {x : ℚ} (h : x ≤ 1) : qmax 0 x ≤ 1 := by
  unfold qmax; split
  · exact h
  · norm_num

theorem qmin_one_le_one (s : ℚ) : qmin 1 s ≤ 1 := by
  unfold qmin; split
  · exact le_refl 1
  · exact le_of_not_le (by assumption)

theorem dget?_dset (d : PyDict) (k : String) (v : PyVal) :
    dget? (dset d k v) k = some v := by
  induction d with
  | nil => simp [dset, dget?]
  | cons a rest ih =>
    by_cases h : a.1 = k
    · simp [dset, h, dget?]
    · simp [dset, h, dget?, ih]

theorem enhancedKey_dset (r : PyDict) (s : ℚ) :
    enhancedKey (dset r "enhanced_score" (.float s)) = s := by
  simp [enhancedKey, dgetD, dget?_dset, pyFloat?]

theorem find?_map_keyfix {β : Type} (l : List (String × β)) (n : String)
    (f : String × β → String × β) (hf : ∀ p, (f p).1 = p.1) :
    List.find? (fun p => p.1 == n) (l.map f) =
      (List.find? (fun p => p.1 == n) l).map f := by
  induction l with
  | nil => rfl
  | cons a rest ih =>
    by_cases h : a.1 == n
    · simp [List.find?, hf, h]
    · simp [List.find?, hf, h, ih]

theorem findAgent_updateAgent (st : ProtocolState) (n : String)
    (f : AgentReg → AgentReg) :
    findAgent (updateAgent st n f) n = (findAgent st n).map f := by
  unfold findAgent updateAgent
  rw [find?_map_keyfix]
  · cases h : List.find? (fun p => p.1 == n) st.registeredAgents with
    | none => rfl
    | some a =>
      have ha := List.find?_some h
      simp [Option.map, ha]
  · intro p
    by_cases h : p.1 == n <;> simp [h]

theorem validateMessage_false_of_expired {now : Int} {m : AMessage}
    (h : isExpired now m = true) : validateMessage now m = false := by
  unfold validateMessage
  split
  · rfl
  · simp [h]

theorem filter_orderedInsert (q : ℚ) (x : PyDict) (l : List PyDict) :
    (List.orderedInsert keyGe x l).filter (fun r => decide (enhancedKey r = q)) =
      if enhancedKey x = q
      then x :: l.filter (fun r => decide (enhancedKey r = q))
      else l.filter (fun r => decide (enhancedKey r = q)) := by
  induction l with
  | nil =>
    by_cases hx : enhancedKey x = q <;> simp [List.orderedInsert, hx]
  | cons y ys ih =>
    by_cases hr : keyGe x y
    · by_cases hx : enhancedKey x = q <;>
        simp [List.orderedInsert, hr, hx]
    · have hlt : enhancedKey x < enhancedKey y := lt_of_not_le hr
      by_cases hx : enhancedKey x = q
      · have hy : ¬ enhancedKey y = q := by
          intro hyq; rw [hx] at hlt; rw [hyq] at hlt; exact lt_irrefl q hlt
        simp [List.orderedInsert, hr, hx, hy, ih]
      · by_cases hy : enhancedKey y = q <;>
          simp [List.orderedInsert, hr, hx, hy, ih]

theorem filter_insertionSort (q : ℚ) (l : List PyDict) :
    (List.insertionSort keyGe l).filter (fun r => decide (enhancedKey r = q)) =
      l.filter (fun r => decide (enhancedKey r = q)) := by
  induction l with
  | nil => rfl
  | cons x xs ih =>
    by_cases hx : enhancedKey x = q <;>
      simp [List.insertionSort, filter_orderedInsert, hx, ih]

/-! ## Concrete fixtures for counterexamples and witnesses -/

/-- A protocol state with no agents and empty histories. -/
def emptyState : ProtocolState := { registeredAgents := [], messageHistory := [], failedMessages := [] }

/-- A message with an empty sender (fails validation), not expired at time 0. -/
def msgEmptySender : AMessage :=
  { sender := "", receiver := "b", payload := .dict [], timestamp := 0,
    expires_at := some 10, retry_count := 0 }

/-- A validation-passing message addressed to agent `"b"`. -/
def msgValid : AMessage :=
  { sender := "a", receiver := "b", payload := .dict [], timestamp := 0,
    expires_at := some 10, retry_count := 0 }

/-- A validation-passing message whose retry count has reached 3. -/
def msgMaxed : AMessage :=
  { sender := "a", receiver := "b", payload := .dict [], timestamp := 0,
    expires_at := some 10, retry_count := 3 }

/-- A message to `"b"` that is already expired at time 0. -/
def msgExpired : AMessage :=
  { sender := "a", receiver := "b", payload := .dict [], timestamp := 0,
    expires_at := some (-1), retry_count := 1 }

/-- A registration for `"b"` whose status is `ERROR` and whose handler
always succeeds. -/
def regErrorB : AgentReg :=
  { agentName := "b", status := .error, lastHeartbeat := 0, handlerOk := fun _ => true }

/-- A state in which `"b"` is registered with status `ERROR`. -/
def stWithB : ProtocolState :=
  { registeredAgents := [("b", regErrorB)], messageHistory := [], failedMessages := [] }

/-! ## C3: validation failure and the failed-messages list -/

/-- C3 counterexample: the claim states that a message failing validation
is appended to the failed-messages list.  The message with an empty sender
fails validation and `send_message` returns `False`, but the failed list
stays empty — nothing is archived on a validation failure. -/
theorem validation_failure_not_archived_cex :
    validateMessage 0 msgEmptySender = false ∧
    (sendMessage 3 0 emptyState msgEmptySender).1 = false ∧
    (sendMessage 3 0 emptyState msgEmptySender).2.1.failedMessages = [] := by
  refine ⟨by rfl, by rfl, by rfl⟩

/-- C3 (amended): a message that fails validation — empty sender or
receiver, already expired, or non-dict payload — makes `send_message`
return `False` and leave the state untouched (in particular nothing is
appended to the failed-messages list and no retry is scheduled); an
expired message is always rejected this way, regardless of the receiver's
state. -/
theorem validation_failure_returns_false_state_unchanged
    (maxRetries : ℕ) (now : Int) (st : ProtocolState) (m : AMessage) :
    (validateMessage now m = false →
      sendMessage maxRetries now st m = (false, st, Option.none)) ∧
    (isExpired now m = true →
      sendMessage maxRetries now st m = (false, st, Option.none)) := by
  constructor
  · intro h
    simp [sendMessage, h]
  · intro h
    simp [sendMessage, validateMessage_false_of_expired h]

/-- C3 witness: the amended theorem applied to the empty-sender message
and, for the expiry part, to an expired message. -/
theorem validation_failure_returns_false_state_unchanged_witness :
    (validateMessage 0 msgEmptySender = false ∧
      sendMessage 3 0 emptyState msgEmptySender = (false, emptyState, Option.none)) ∧
    (isExpired 0 msgExpired = true ∧
      sendMessage 3 0 stWithB msgExpired = (false, stWithB, Option.none)) :=
  ⟨⟨by rfl, (validation_failure_returns_false_state_unchanged 3 0 emptyState msgEmptySender).1 (by rfl)⟩,
   ⟨by rfl, (validation_failure_returns_false_state_unchanged 3 0 stWithB msgExpired).2 (by rfl)⟩⟩

/-! ## C5: retry policy -/

/-- C5: below `max_retries` a delivery failure increments the retry count
(keeping it ≤ `max_retries`) and schedules a retry sleeping
`min(2 ** retry_count, 5)` computed AFTER the increment — the N-th
scheduled retry sleeps `min(2^N, 5)`; at or above `max_retries` the
message is appended to the failed archive and no retry is scheduled. -/
theorem retry_policy_cap_and_backoff
    (maxRetries : ℕ) (st : ProtocolState) (m : AMessage) :
    (m.retry_count < maxRetries →
      handleDeliveryFailure maxRetries st m =
        (st, some ({ m with retry_count := m.retry_count + 1 },
          min (2 ^ (m.retry_count + 1)) 5)) ∧
      m.retry_count + 1 ≤ maxRetries) ∧
    (maxRetries ≤ m.retry_count →
      handleDeliveryFailure maxRetries st m =
        ({ st with failedMessages := st.failedMessages ++ [m] }, Option.none)) := by
  constructor
  · intro h
    exact ⟨by simp [handleDeliveryFailure, h], h⟩
  · intro h
    simp [handleDeliveryFailure, Nat.not_lt.mpr h]

/-- C5 witness: both branches of the retry policy at retry counts 0
(schedules a 2-time-unit retry at count 1) and 3 (archives). -/
theorem retry_policy_cap_and_backoff_witness :
    (msgValid.retry_count < 3 ∧
      handleDeliveryFailure 3 emptyState msgValid =
        (emptyState, some ({ msgValid with retry_count := msgValid.retry_count + 1 },
          min (2 ^ (msgValid.retry_count + 1)) 5)) ∧
      msgValid.retry_count + 1 ≤ 3) ∧
    (3 ≤ msgMaxed.retry_count ∧
      handleDeliveryFailure 3 emptyState msgMaxed =
        ({ emptyState with failedMessages := emptyState.failedMessages ++ [msgMaxed] },
          Option.none)) :=
  ⟨⟨by decide, (retry_policy_cap_and_backoff 3 emptyState msgValid).1 (by decide)⟩,
   ⟨by decide, (retry_policy_cap_and_backoff 3 emptyState msgMaxed).2 (by decide)⟩⟩

/-! ## C6: unknown receiver -/

/-- C6: a validation-passing message whose receiver is not registered
makes `send_message` return `False` and append the message — unchanged, so
with its original retry count (0 for a fresh message) — to the failed
archive; no retry is scheduled. -/
theorem unknown_receiver_archived_unchanged
    (maxRetries : ℕ) (now : Int) (st : ProtocolState) (m : AMessage)
    (hv : validateMessage now m = true)
    (hr : findAgent st m.receiver = Option.none) :
    sendMessage maxRetries now st m =
      (false, { st with failedMessages := st.failedMessages ++ [m] }, Option.none) := by
  unfold sendMessage
  rw [hv]
  simp [hr]

/-- C6 witness: sending the fresh valid message (retry count 0) into the
empty registry archives exactly that message. -/
theorem unknown_receiver_archived_unchanged_witness :
    validateMessage 0 msgValid = true ∧
    findAgent emptyState msgValid.receiver = Option.none ∧
    msgValid.retry_count = 0 ∧
    sendMessage 3 0 emptyState msgValid =
      (false, { emptyState with failedMessages := emptyState.failedMessages ++ [msgValid] },
        Option.none) :=
  ⟨by rfl, by rfl, by rfl,
   unknown_receiver_archived_unchanged 3 0 emptyState msgValid (by rfl) (by rfl)⟩

/-! ## C8: expiry vs. creation time -/

/-- A message constructed with a caller-supplied `expires_at` lying before
its creation time. -/
def msgPastExpiry : AMessage := mkAgentMessage "a" "b" (.dict []) 0 30 (some (-1))

/-- C8 counterexample: the constructor keeps a caller-supplied
`expires_at` untouched, so a message can be built whose `expires_at`
(-1) lies strictly BEFORE its creation timestamp (0) — the claimed
invariant `expires_at ≥ created_at` fails for caller-supplied values. -/
theorem expiry_before_creation_cex :
    msgPastExpiry.expires_at = some (-1) ∧
    msgPastExpiry.timestamp = 0 ∧
    (-1 : Int) < 0 := by
  refine ⟨by rfl, by rfl, by decide⟩

/-- C8 (amended): when the caller does NOT supply `expires_at`,
`__post_init__` sets it to `timestamp + A2A_MESSAGE_TIMEOUT`, which is
at least the creation timestamp whenever the configured timeout is
non-negative (the shipped default is 30 seconds); a caller-supplied
`expires_at` is kept verbatim and may precede the creation time. -/
theorem default_expiry_not_before_creation
    (s r : String) (p : PyVal) (now timeout : Int) (h : 0 ≤ timeout) :
    (mkAgentMessage s r p now timeout Option.none).expires_at = some (now + timeout) ∧
    (mkAgentMessage s r p now timeout Option.none).timestamp ≤ now + timeout := by
  refine ⟨by rfl, ?_⟩
  show now ≤ now + timeout
  omega

/-- C8 witness: the default-expiry invariant at the shipped 30-second
timeout. -/
theorem default_expiry_not_before_creation_witness :
    (0 : Int) ≤ 30 ∧
    (mkAgentMessage "a" "b" (.dict []) 0 30 Option.none).expires_at = some (0 + 30) ∧
    (mkAgentMessage "a" "b" (.dict []) 0 30 Option.none).timestamp ≤ 0 + 30 :=
  ⟨by decide, default_expiry_not_before_creation "a" "b" (.dict []) 0 30 (by decide)⟩

/-! ## C9: the retry path skips validation -/

/-- C9: the detached retry task calls `_deliver_message_sync` directly,
with no validation and no expiry check: a message that has expired by the
time the retry fires (and which `send_message` would therefore reject) is
still delivered successfully to a registered receiver whose handler
succeeds. -/
theorem retry_delivers_expired_message
    (maxRetries : ℕ) (now : Int) (st : ProtocolState) (m : AMessage) (reg : AgentReg)
    (hexp : isExpired now m = true)
    (hreg : findAgent st m.receiver = some reg)
    (hok : reg.handlerOk m = true) :
    retryFire maxRetries st m = (true, st, Option.none) ∧
    validateMessage now m = false := by
  constructor
  · unfold retryFire deliverMessageSync
    rw [hreg]
    simp [hok]
  · exact validateMessage_false_of_expired hexp

/-- C9 witness: at time 0 the expired message `msgExpired` is rejected by
validation but delivered by the retry path to the registered agent
`"b"`. -/
theorem retry_delivers_expired_message_witness :
    isExpired 0 msgExpired = true ∧
    findAgent stWithB msgExpired.receiver = some regErrorB ∧
    regErrorB.handlerOk msgExpired = true ∧
    (retryFire 3 stWithB msgExpired = (true, stWithB, Option.none) ∧
      validateMessage 0 msgExpired = false) :=
  ⟨by rfl, by rfl, by rfl,
   retry_delivers_expired_message 3 0 stWithB msgExpired regErrorB (by rfl) (by rfl) (by rfl)⟩

/-! ## C10: delivery ignores agent status -/

/-- C10: delivery never inspects the receiver's status — a registered
receiver whose handler succeeds gets the message delivered whatever its
status, and the state (hence the pre-delivery status, including `ERROR`)
is restored unchanged.  `send_heartbeat` leaves an `ERROR` agent in
`ERROR` (only refreshing its heartbeat) and flips an `INACTIVE` agent to
`ACTIVE`; the heartbeat monitor sweep also leaves an `ERROR` agent
untouched; re-registration resets the status to `ACTIVE`. -/
theorem delivery_ignores_status_error_persists
    (st : ProtocolState) (now timeout2 : Int) :
    (∀ m reg, findAgent st m.receiver = some reg → reg.handlerOk m = true →
      deliverMessageSync st m = (true, st)) ∧
    (∀ name reg, findAgent st name = some reg → reg.status = .error →
      findAgent (sendHeartbeat now st name) name =
        some { reg with lastHeartbeat := now }) ∧
    (∀ name reg, findAgent st name = some reg → reg.status = .inactive →
      findAgent (sendHeartbeat now st name) name =
        some { reg with lastHeartbeat := now, status := .active }) ∧
    (∀ name h, findAgent (registerAgent now st name h) name =
      some { agentName := name, status := .active, lastHeartbeat := now,
             handlerOk := h }) ∧
    (∀ name reg, findAgent st name = some reg → reg.status = .error →
      findAgent (monitorSweep now timeout2 st) name = some reg) := by
  refine ⟨?_, ?_, ?_, ?_, ?_⟩
  · intro m reg hreg hok
    unfold deliverMessageSync
    rw [hreg]
    simp [hok]
  · intro name reg hreg herr
    unfold sendHeartbeat
    rw [hreg]
    rw [findAgent_updateAgent, hreg]
    simp [herr]
  · intro name reg hreg hina
    unfold sendHeartbeat
    rw [hreg]
    rw [findAgent_updateAgent, hreg]
    simp [hina]
  · intro name h
    unfold registerAgent findAgent
    cases hfind : st.registeredAgents.find? (fun p => p.1 == name) with
    | some a =>
      have ha : a.1 = name := by simpa using List.find?_some hfind
      simp only [hfind, Option.isSome_some, if_true]
      rw [find?_map_keyfix]
      · rw [hfind]
        simp [Option.map, ha]
      · intro p
        by_cases hp : p.1 == name <;> simp [hp]
    | none =>
      simp only [hfind, Option.isSome_none, Bool.false_eq_true, if_false]
      rw [List.find?_append, hfind]
      simp [List.find?]
  · intro name reg hreg herr
    unfold monitorSweep findAgent
    rw [find?_map_keyfix]
    · unfold findAgent at hreg
      cases hfind : st.registeredAgents.find? (fun p => p.1 == name) with
      | none => rw [hfind] at hreg; simp at hreg
      | some a =>
        obtain ⟨k, r⟩ := a
        rw [hfind] at hreg
        simp only [Option.some.injEq] at hreg
        subst hreg
        simp [herr]
    · intro p
      by_cases hp : !(now - p.2.lastHeartbeat < timeout2) && p.2.status = .active <;>
        simp [hp]

/-- C10 witness: the `ERROR` agent `"b"` receives a message successfully
and keeps its status, its heartbeat leaves it in `ERROR`, a re-register
makes it `ACTIVE`, and the monitor sweep leaves it alone. -/
theorem delivery_ignores_status_error_persists_witness :
    (findAgent stWithB msgValid.receiver = some regErrorB ∧
      regErrorB.handlerOk msgValid = true ∧
      deliverMessageSync stWithB msgValid = (true, stWithB)) ∧
    (regErrorB.status = .error ∧
      findAgent (sendHeartbeat 5 stWithB "b") "b" =
        some { regErrorB with lastHeartbeat := 5 }) :=
  ⟨⟨by rfl, by rfl,
    (delivery_ignores_status_error_persists stWithB 5 60).1 msgValid regErrorB (by rfl) (by rfl)⟩,
   ⟨by rfl,
    (delivery_ignores_status_error_persists stWithB 5 60).2.1 "b" regErrorB (by rfl) (by rfl)⟩⟩

/-! ## C1: enhanced score bounds -/

/-- C1 counterexample: with a base similarity score of 1.5 and a
`comparison_details` value that is not a dict, `_calculate_enhanced_score`
takes the early `return base_score` path and yields 1.5, outside `[0,1]` —
the claimed bound fails for malformed input. -/
theorem enhanced_score_escapes_unit_interval_cex :
    calculateEnhancedScore
      [("similarity_score", .float (3/2)), ("comparison_details", .str "oops")] = 3/2 ∧
    ¬ (calculateEnhancedScore
      [("similarity_score", .float (3/2)), ("comparison_details", .str "oops")] ≤ 1) := by
  have h : calculateEnhancedScore
      [("similarity_score", .float (3/2)), ("comparison_details", .str "oops")] = 3/2 := by
    simp [calculateEnhancedScore, scoreAdjust, dgetD, dget?, qmin, qmax, pyFloat?,
      isNoneV, pyEqStr, truthy]
  refine ⟨h, ?_⟩
  rw [h]
  norm_num

/-- C1 (amended): whenever the `comparison_details` entry is a dict (in
particular when it is missing, since the lookup default is `{}`), the
enhanced score is clamped into `[0,1]` — for ANY shape of the remaining
fields; and any non-dict value stored under the four sub-structure keys
contributes zero adjustment (and nothing raises).  Only a present,
non-dict `comparison_details` escapes the clamp, returning the raw base
score. -/
theorem enhanced_score_clamped_for_dict_details
    (result : PyDict)
    (h : isDictV (dgetD result "comparison_details" (.dict [])) = true) :
    (0 ≤ calculateEnhancedScore result ∧ calculateEnhancedScore result ≤ 1) ∧
    (∀ junk : PyVal, ∀ s : ℚ, isDictV junk = false →
      scoreAdjust [("skills_match", junk), ("experience_match", junk),
                   ("education_match", junk), ("overall_assessment", junk)] s = s) := by
  obtain ⟨cd, hcd⟩ : ∃ cd, dgetD result "comparison_details" (.dict []) = .dict cd := by
    cases hv : dgetD result "comparison_details" (.dict []) <;> simp_all [isDictV]
  constructor
  · constructor
    · simp only [calculateEnhancedScore]
      split
      · norm_num
      · rw [hcd]
        exact qmax_zero_nonneg _
    · simp only [calculateEnhancedScore]
      split
      · norm_num
      · rw [hcd]
        exact qmax_zero_le_one (qmin_one_le_one _)
  · intro junk s hj
    cases junk <;> simp_all [scoreAdjust, dgetD, dget?, isDictV]

/-- C1 witness: the clamp theorem at a malformed record whose
sub-structures are all the non-dict value `"junk"` and whose base score is
1.5: the result stays in `[0,1]`. -/
theorem enhanced_score_clamped_for_dict_details_witness :
    isDictV (dgetD
      [("similarity_score", .float (3/2)),
       ("comparison_details", .dict [("skills_match", .str "junk")])]
      "comparison_details" (.dict [])) = true ∧
    (0 ≤ calculateEnhancedScore
        [("similarity_score", .float (3/2)),
         ("comparison_details", .dict [("skills_match", .str "junk")])] ∧
      calculateEnhancedScore
        [("similarity_score", .float (3/2)),
         ("comparison_details", .dict [("skills_match", .str "junk")])] ≤ 1) ∧
    (∀ junk : PyVal, ∀ s : ℚ, isDictV junk = false →
      scoreAdjust [("skills_match", junk), ("experience_match", junk),
                   ("education_match", junk), ("overall_assessment", junk)] s = s) :=
  ⟨by simp [dgetD, dget?, isDictV],
   (enhanced_score_clamped_for_dict_details
     [("similarity_score", .float (3/2)),
      ("comparison_details", .dict [("skills_match", .str "junk")])]
     (by simp [dgetD, dget?, isDictV])).1,
   (enhanced_score_clamped_for_dict_details
     [("similarity_score", .float (3/2)),
      ("comparison_details", .dict [("skills_match", .str "junk")])]
     (by simp [dgetD, dget?, isDictV])).2⟩

/-! ## C2: rank positions, descending order, stability -/

/-- Core behaviour of the embedded `rank_applications` on a truthy job id
and a non-empty result list: contiguous 1-based positions, records sorted
by descending enhanced score, a permutation of the scored inputs, and
stability of the sort. -/
theorem rankApplications_spec
    (jobId : PyVal) (results : List PyDict)
    (hj : truthy jobId = true) (hne : results ≠ []) :
    ∃ out, rankApplications jobId results = some out ∧
      out.map Prod.fst = List.range' 1 results.length ∧
      List.Sorted keyGe (out.map Prod.snd) ∧
      List.Perm (out.map Prod.snd) (scoreResults results) ∧
      ∀ q : ℚ, (out.map Prod.snd).filter (fun r => decide (enhancedKey r = q)) =
        (scoreResults results).filter (fun r => decide (enhancedKey r = q)) := by
  have hlen : (List.insertionSort keyGe (scoreResults results)).length = results.length := by
    rw [(List.perm_insertionSort keyGe (scoreResults results)).length_eq]
    simp [scoreResults]
  have hr1 : (List.range' 1 (List.insertionSort keyGe (scoreResults results)).length).length =
      (List.insertionSort keyGe (scoreResults results)).length := by
    simp
  have hsnd : ((List.range' 1 (List.insertionSort keyGe (scoreResults results)).length).zip
      (List.insertionSort keyGe (scoreResults results))).map Prod.snd =
      List.insertionSort keyGe (scoreResults results) :=
    List.map_snd_zip _ _ (le_of_eq hr1.symm)
  refine ⟨(List.range' 1 (List.insertionSort keyGe (scoreResults results)).length).zip
      (List.insertionSort keyGe (scoreResults results)), ?_, ?_, ?_, ?_, ?_⟩
  · simp [rankApplications, hj, List.isEmpty_eq_false.mpr hne]
  · rw [List.map_fst_zip _ _ (le_of_eq hr1), hlen]
  · rw [hsnd]
    exact List.sorted_insertionSort keyGe _
  · rw [hsnd]
    exact List.perm_insertionSort keyGe _
  · intro q
    rw [hsnd]
    exact filter_insertionSort q _

/-- C2: on a truthy job id and a non-empty result list (and with every
database save succeeding, as the embedding assumes), `rank_applications`
assigns the contiguous positions `1..N`, the paired records are sorted by
descending enhanced score, they are a permutation of the scored inputs,
and the sort is stable: restricted to any fixed score value the output
order equals the original input order. -/
theorem rank_positions_contiguous_sorted_stable
    (jobId : PyVal) (results : List PyDict)
    (hj : truthy jobId = true) (hne : results ≠ []) :
    ∃ out, rankApplications jobId results = some out ∧
      out.map Prod.fst = List.range' 1 results.length ∧
      List.Sorted keyGe (out.map Prod.snd) ∧
      List.Perm (out.map Prod.snd) (scoreResults results) ∧
      ∀ q : ℚ, (out.map Prod.snd).filter (fun r => decide (enhancedKey r = q)) =
        (scoreResults results).filter (fun r => decide (enhancedKey r = q)) :=
  rankApplications_spec jobId results hj hne

/-- A comparison result for application 1 scoring 0.9. -/
def cmpHigh : PyDict :=
  [("application_id", .int 1), ("similarity_score", .float (9/10)),
   ("comparison_details", .dict [])]

/-- A comparison result for application 2 scoring 0.5. -/
def cmpLow : PyDict :=
  [("application_id", .int 2), ("similarity_score", .float (1/2)),
   ("comparison_details", .dict [])]

/-- C2 witness: the ranking invariants at job id 7 with the two concrete
comparison results. -/
theorem rank_positions_contiguous_sorted_stable_witness :
    truthy (.int 7) = true ∧ [cmpHigh, cmpLow] ≠ [] ∧
    (∃ out, rankApplications (.int 7) [cmpHigh, cmpLow] = some out ∧
      out.map Prod.fst = List.range' 1 [cmpHigh, cmpLow].length ∧
      List.Sorted keyGe (out.map Prod.snd) ∧
      List.Perm (out.map Prod.snd) (scoreResults [cmpHigh, cmpLow]) ∧
      ∀ q : ℚ, (out.map Prod.snd).filter (fun r => decide (enhancedKey r = q)) =
        (scoreResults [cmpHigh, cmpLow]).filter (fun r => decide (enhancedKey r = q))) :=
  ⟨by decide, by simp,
   rank_positions_contiguous_sorted_stable (.int 7) [cmpHigh, cmpLow] (by decide) (by simp)⟩

/-! ## C4: all-zero scores and the email variant -/

/-- A comparison result for application 1 scoring 0. -/
def zeroCmpA : PyDict :=
  [("application_id", .int 1), ("similarity_score", .float 0),
   ("comparison_details", .dict [])]

/-- A comparison result for application 2 scoring 0. -/
def zeroCmpB : PyDict :=
  [("application_id", .int 2), ("similarity_score", .float 0),
   ("comparison_details", .dict [])]

/-- The record `zeroCmpA` after scoring: enhanced score 0 appended. -/
def zeroScoredA : PyDict := zeroCmpA ++ [("enhanced_score", .float 0)]

/-- The record `zeroCmpB` after scoring: enhanced score 0 appended. -/
def zeroScoredB : PyDict := zeroCmpB ++ [("enhanced_score", .float 0)]

/-- C4 counterexample: when every application scores 0, ranking still
produces a full 1..N ranking (all scores zero) and forwards it to the
communication agent — but because the rankings list is non-empty,
`send_ranking_notification` takes the TOP-CANDIDATES branch, not the
"no suitable candidates" variant the claim expects (that variant is
chosen only when the rankings list is empty). -/
theorem zero_scores_top_candidates_email_cex :
    calculateEnhancedScore zeroCmpA = 0 ∧
    calculateEnhancedScore zeroCmpB = 0 ∧
    rankApplications (.int 5) [zeroCmpA, zeroCmpB] =
      some [(1, zeroScoredA), (2, zeroScoredB)] ∧
    forwardsToCommunication (rankApplications (.int 5) [zeroCmpA, zeroCmpB]) = true ∧
    rankingNotificationVariant [(1, zeroScoredA), (2, zeroScoredB)] =
      EmailVariant.topCandidates 2 ∧
    EmailVariant.topCandidates 2 ≠ EmailVariant.noMatches := by
  have hA : calculateEnhancedScore zeroCmpA = 0 := by
    simp [zeroCmpA, calculateEnhancedScore, scoreAdjust, dgetD, dget?, qmin, qmax,
      pyFloat?, isNoneV, pyEqStr, truthy] <;> norm_num
  have hB : calculateEnhancedScore zeroCmpB = 0 := by
    simp [zeroCmpB, calculateEnhancedScore, scoreAdjust, dgetD, dget?, qmin, qmax,
      pyFloat?, isNoneV, pyEqStr, truthy] <;> norm_num
  have hsA : dset zeroCmpA "enhanced_score" (.float 0) = zeroScoredA := by
    simp [dset, zeroCmpA, zeroScoredA]
  have hsB : dset zeroCmpB "enhanced_score" (.float 0) = zeroScoredB := by
    simp [dset, zeroCmpB, zeroScoredB]
  have hset : scoreResults [zeroCmpA, zeroCmpB] = [zeroScoredA, zeroScoredB] := by
    simp only [scoreResults, List.map_cons, List.map_nil, hA, hB, hsA, hsB]
  have hkg : keyGe zeroScoredA zeroScoredB := by
    unfold keyGe
    rw [← hsA, ← hsB, enhancedKey_dset, enhancedKey_dset]
  have hrank : rankApplications (.int 5) [zeroCmpA, zeroCmpB] =
      some [(1, zeroScoredA), (2, zeroScoredB)] := by
    unfold rankApplications
    rw [hset]
    simp [List.insertionSort, List.orderedInsert, hkg, truthy, List.range']
  refine ⟨hA, hB, hrank, ?_, by simp [rankingNotificationVariant], by simp⟩
  rw [hrank]
  simp [forwardsToCommunication]

/-- C4 (amended): when the comparison stage delivers a non-empty batch in
which every application's enhanced score is 0, ranking still produces a
full 1..N ranking with all scores 0 and forwards it to the communication
agent, which then sends the TOP-CANDIDATES email for `min(3, N)`
candidates; the "no suitable candidates" variant is reserved for an empty
rankings list and is NOT sent here. -/
theorem zero_scores_full_ranking_top_variant
    (jobId : PyVal) (results : List PyDict)
    (hj : truthy jobId = true) (hne : results ≠ [])
    (hz : ∀ r ∈ results, calculateEnhancedScore r = 0) :
    ∃ out, rankApplications jobId results = some out ∧
      out.map Prod.fst = List.range' 1 results.length ∧
      (∀ p ∈ out, enhancedKey p.2 = 0) ∧
      forwardsToCommunication (rankApplications jobId results) = true ∧
      rankingNotificationVariant out = .topCandidates (min 3 results.length) ∧
      rankingNotificationVariant out ≠ .noMatches := by
  obtain ⟨out, hout, hfst, hsort, hperm, hstab⟩ :=
    rankApplications_spec jobId results hj hne
  have houtlen : out.length = results.length := by
    have := congrArg List.length hfst
    simpa using this
  have houtne : out ≠ [] := by
    intro hcon
    rw [hcon] at houtlen
    exact hne (List.eq_nil_of_length_eq_zero houtlen.symm)
  have hkey : ∀ p ∈ out, enhancedKey p.2 = 0 := by
    intro p hp
    have hmem : p.2 ∈ out.map Prod.snd := List.mem_map_of_mem Prod.snd hp
    have hmem' : p.2 ∈ scoreResults results := hperm.mem_iff.mp hmem
    obtain ⟨r, hr, hrs⟩ := List.mem_map.mp hmem'
    rw [← hrs, hz r hr, enhancedKey_dset]
  refine ⟨out, hout, hfst, hkey, ?_, ?_, ?_⟩
  · rw [hout]
    simp [forwardsToCommunication, List.isEmpty_eq_false.mpr houtne]
  · unfold rankingNotificationVariant
    have hietf : out.isEmpty = false := List.isEmpty_eq_false.mpr houtne
    rw [hietf]
    have htne : (out.take 3).isEmpty = false := by
      rw [List.isEmpty_eq_false]
      intro hcon
      have := congrArg List.length hcon
      simp [houtlen] at this
      exact hne this
    simp only [Bool.false_eq_true, if_false, htne]
    simp [List.length_take, houtlen]
  · unfold rankingNotificationVariant
    have hietf : out.isEmpty = false := List.isEmpty_eq_false.mpr houtne
    rw [hietf]
    have htne : (out.take 3).isEmpty = false := by
      rw [List.isEmpty_eq_false]
      intro hcon
      have := congrArg List.length hcon
      simp [houtlen] at this
      exact hne this
    simp [htne]

/-- C4 witness: the amended pipeline behaviour at job id 5 with the two
zero-scoring applications. -/
theorem zero_scores_full_ranking_top_variant_witness :
    truthy (.int 5) = true ∧ [zeroCmpA, zeroCmpB] ≠ [] ∧
    (∀ r ∈ [zeroCmpA, zeroCmpB], calculateEnhancedScore r = 0) ∧
    (∃ out, rankApplications (.int 5) [zeroCmpA, zeroCmpB] = some out ∧
      out.map Prod.fst = List.range' 1 [zeroCmpA, zeroCmpB].length ∧
      (∀ p ∈ out, enhancedKey p.2 = 0) ∧
      forwardsToCommunication (rankApplications (.int 5) [zeroCmpA, zeroCmpB]) = true ∧
      rankingNotificationVariant out = .topCandidates (min 3 [zeroCmpA, zeroCmpB].length) ∧
      rankingNotificationVariant out ≠ .noMatches) := by
  have hz : ∀ r ∈ [zeroCmpA, zeroCmpB], calculateEnhancedScore r = 0 := by
    intro r hr
    rcases List.mem_cons.mp hr with h | h
    · subst h
      simp [zeroCmpA, calculateEnhancedScore, scoreAdjust, dgetD, dget?, qmin, qmax,
        pyFloat?, isNoneV, pyEqStr, truthy] <;> norm_num
    · rcases List.mem_cons.mp h with h' | h'
      · subst h'
        simp [zeroCmpB, calculateEnhancedScore, scoreAdjust, dgetD, dget?, qmin, qmax,
          pyFloat?, isNoneV, pyEqStr, truthy] <;> norm_num
      · simp at h'
  exact ⟨by decide, by simp, hz,
    zero_scores_full_ranking_top_variant (.int 5) [zeroCmpA, zeroCmpB] (by decide) (by simp) hz⟩

/-! ## C7: which score the Ranking record carries -/

/-- A comparison result whose oracle similarity is 0.5 and whose education
bonus raises the enhanced score to 0.53. -/
def oracleResult : PyDict :=
  [("application_id", .int 9), ("similarity_score", .float (1/2)),
   ("comparison_details", .dict [("education_match",
      .dict [("meets_requirements", .bool true)])])]

/-- The record `oracleResult` after scoring (enhanced score 0.53 appended). -/
def scoredOracleResult : PyDict :=
  oracleResult ++ [("enhanced_score", .float (53/100))]

/-- C7 counterexample: the record built by the save loop stores the
ENHANCED score (0.53) in its `similarity_score` field, not the
oracle-provided similarity score (0.5) still present in the input — the
code reads `similarity_score=enhanced_score  # Use enhanced score`. -/
theorem similarity_field_not_oracle_cex :
    dset oracleResult "enhanced_score"
        (.float (calculateEnhancedScore oracleResult)) = scoredOracleResult ∧
    dgetD scoredOracleResult "similarity_score" (.float 0) = .float (1/2) ∧
    (buildRanking (.int 5) 1 0 1 scoredOracleResult).map
        (fun rb => rb.similarity_score) = some (53/100) ∧
    ¬ ((53 : ℚ)/100 = 1/2) := by
  refine ⟨?_, ?_, ?_, by norm_num⟩
  · have hsc : calculateEnhancedScore oracleResult = 53/100 := by
      simp [oracleResult, calculateEnhancedScore, scoreAdjust, dgetD, dget?, qmin,
        qmax, pyFloat?, isNoneV, pyEqStr, truthy] <;> norm_num
    rw [hsc]
    simp [dset, oracleResult, scoredOracleResult]
  · simp [dgetD, dget?, oracleResult, scoredOracleResult]
  · simp [buildRanking, coerceScores, dgetD, dget?, dset, pyFloat?, isNoneV,
      oracleResult, scoredOracleResult]

/-- C7 (amended): every Ranking record returned by the save loop carries
the enhanced (post-adjustment) score in its `similarity_score` field; the
oracle-provided similarity score survives only inside
`ranking_details['ranking_metadata']['original_similarity_score']`, next
to the enhanced score under the metadata's `'enhanced_score'` key. -/
theorem ranking_record_scores
    (jobId : PyVal) (total : ℕ) (ts : ℚ) (i : ℕ)
    (result : PyDict) (rb : RankingModel)
    (h : buildRanking jobId total ts i result = some rb) :
    rb.similarity_score = (coerceScores result).2 ∧
    rb.rank_position = i ∧
    dget? rb.ranking_details "ranking_metadata" =
      some (.dict [("original_similarity_score", .float (coerceScores result).1),
                   ("enhanced_score", .float (coerceScores result).2),
                   ("rank_position", .int (i : Int)),
                   ("total_candidates", .int (total : Int)),
                   ("ranking_timestamp", .float ts)]) := by
  simp only [buildRanking] at h
  cases happ : dget? result "application_id" with
  | none => rw [happ] at h; exact absurd h (by simp)
  | some appId =>
    rw [happ] at h
    simp only [Option.some.injEq] at h
    subst h
    exact ⟨rfl, rfl, dget?_dset _ _ _⟩

/-- The record the save loop builds from `scoredOracleResult` at rank 1 of
1 with timestamp 0. -/
def oracleRankingRec : RankingModel :=
  { job_id := .int 5, application_id := .int 9, similarity_score := 53/100,
    rank_position := 1,
    ranking_details :=
      [("education_match", .dict [("meets_requirements", .bool true)]),
       ("ranking_metadata", .dict [
          ("original_similarity_score", .float (1/2)),
          ("enhanced_score", .float (53/100)),
          ("rank_position", .int 1),
          ("total_candidates", .int 1),
          ("ranking_timestamp", .float 0)])] }

/-- C7 witness: the amended theorem at the concrete scored record. -/
theorem ranking_record_scores_witness :
    buildRanking (.int 5) 1 0 1 scoredOracleResult = some oracleRankingRec ∧
    (oracleRankingRec.similarity_score = (coerceScores scoredOracleResult).2 ∧
     oracleRankingRec.rank_position = 1 ∧
     dget? oracleRankingRec.ranking_details "ranking_metadata" =
       some (.dict [("original_similarity_score", .float (coerceScores scoredOracleResult).1),
                    ("enhanced_score", .float (coerceScores scoredOracleResult).2),
                    ("rank_position", .int (1 : Int)),
                    ("total_candidates", .int (1 : Int)),
                    ("ranking_timestamp", .float 0)])) := by
  have hb : buildRanking (.int 5) 1 0 1 scoredOracleResult = some oracleRankingRec := by
    simp [buildRanking, coerceScores, dgetD, dget?, dset, pyFloat?, isNoneV,
      oracleResult, scoredOracleResult, oracleRankingRec]
  exact ⟨hb, ranking_record_scores (.int 5) 1 0 1 scoredOracleResult oracleRankingRec hb⟩
